import Mathlib

/-! Verification of the fl-zkp-bridge gradient-folding accumulator.

Shallow embedding of `src/fl-zkp-bridge/src/lib.rs` (the `FLZKPProver`
session, the `AdditionFCircuit` step relation and the `float_to_field`
encoder) together with `field_to_float` from
`examples/addition_circuit.rs`.

Modelling conventions:
* `f64` values are modelled as rationals; the arithmetic the bridge
  performs on them (scaling by 1e6, adding gradients) is exact here.
* The BN254 scalar field `Fr` is `ZMod r` for the concrete prime `r`.
* The Rust cast `as i64` is modelled as truncation toward zero with
  saturation at the i64 bounds; the negation `-scaled` at `i64::MIN` is
  modelled with release-mode two-complement wrapping.
* The external ProtoGalaxy engine (crate `folding-schemes`) is not part of
  the repository; it is modelled from the spec engine contract, see the
  doc comments starting with `Modelled from the spec`. Whether the engine
  accepts a given step is opaque, so it is abstracted by a predicate `E`
  on the encoded external input.
* Mutating methods are modelled in state-passing style: they return the
  pair (session state after the call, result).
-/

namespace FLZKP

/-- Order of the BN254 (alt_bn128) scalar field, the modulus of the
arkworks type `ark_bn254::Fr`. -/
def bn254r : Nat :=
  21888242871839275222246405745257275088548364400416034343698204186575808495617

/-- The scalar field of BN254, as used by the bridge. -/
abbrev Fr : Type := ZMod bn254r

instance : NeZero bn254r := ⟨by decide⟩

/-- Truncation of a rational toward zero, the rounding used by the Rust
float-to-integer cast. -/
def ratTrunc (x : ℚ) : Int := if 0 ≤ x then ⌊x⌋ else ⌈x⌉

/-- Largest value of the Rust type i64. -/
def i64Max : Int := 2 ^ 63 - 1

/-- Smallest value of the Rust type i64. -/
def i64Min : Int := -(2 ^ 63)

/-- The Rust expression `x as i64` on a finite float: truncate toward zero
and saturate to the i64 range. -/
def f64ToI64 (x : ℚ) : Int :=
  if ratTrunc x < i64Min then i64Min
  else if i64Max < ratTrunc x then i64Max
  else ratTrunc x

/-- The Rust expression `(-scaled) as u64` in the negative branch of
`float_to_field`: ordinary negation except at `i64::MIN`, where
release-mode two-complement wrapping yields `2 ^ 63`. -/
def negAsU64 (scaled : Int) : Nat :=
  if scaled = i64Min then 2 ^ 63 else (-scaled).toNat

/-- `float_to_field` from `src/lib.rs` lines 200-209: scale by 1e6, cast
to i64, map a nonnegative result through `Fr::from` and a negative result
through the additive inverse of its magnitude. -/
def float_to_field (value : ℚ) : Fr :=
  let scaled : Int := f64ToI64 (value * 1000000)
  if 0 ≤ scaled then ((scaled.toNat : Nat) : Fr)
  else -((negAsU64 scaled : Nat) : Fr)

/-- `field_to_float` from `examples/addition_circuit.rs` lines 73-86: the
debug representation of the field element is parsed back as a u64 and
divided by 1e6; the parse succeeds exactly when the canonical integer
representative fits in a u64, and every failure path returns `0.0`. -/
def field_to_float (f : Fr) : ℚ :=
  if f.val < 2 ^ 64 then (f.val : ℚ) / 1000000 else 0

/-- `AdditionFCircuit::state_len`: the state vector has one component. -/
def AdditionFCircuit.state_len : Nat := 1

/-- `AdditionFCircuit::generate_step_constraints`: the step relation
`z_next = z_i[0] + external_inputs[0]`, returned as a one-element state
vector. -/
def AdditionFCircuit.generate_step_constraints (z_i : List Fr) (ext : Fr) : List Fr :=
  [z_i.headD 0 + ext]

/-- Modelled from the spec: a committed instance of the folding engine,
reduced to the commitment value the bridge serializes; its cryptographic
internals are opaque to the session. -/
structure CommittedInstance where
  comm : Fr
deriving DecidableEq

/-- Modelled from the spec: prover parameters produced by `preprocess`,
opaque to the session and identified by a tag. -/
structure ProverParams where
  paramsId : Nat
deriving DecidableEq

/-- Modelled from the spec: verifier parameters produced by `preprocess`,
carrying the same tag as the matching prover parameters. -/
structure VerifierParams where
  paramsId : Nat
deriving DecidableEq

/-- Modelled from the spec: the engine state of a ProtoGalaxy instance:
step counter `i`, initial state `z0`, current state `zi`, running
instance `Ui`, incoming instance `ui`, and the tag of the parameters it
was built with. -/
structure EngineState where
  i : Nat
  z0 : Fr
  zi : Fr
  Ui : CommittedInstance
  ui : CommittedInstance
  paramsId : Nat
deriving DecidableEq

/-- Modelled from the spec: `preprocess` produces a prover and verifier
parameter pair with matching tags. -/
def preprocessParams : ProverParams × VerifierParams := (⟨0⟩, ⟨0⟩)

/-- Modelled from the spec: `PG::init` creates the initial running
instance from the state vector: counter 0, `zi = z0`, trivial instances. -/
def engineInit (params : ProverParams × VerifierParams) (z0 : Fr) : EngineState :=
  { i := 0
    z0 := z0
    zi := z0
    Ui := ⟨0⟩
    ui := ⟨0⟩
    paramsId := params.2.paramsId }

/-- Modelled from the spec: a successful `prove_step` increments the
counter by exactly one, advances the state by the step circuit, folds the
incoming instance into the running one and installs the new incoming
instance; the fold of the commitments is opaque and tracked abstractly. -/
def engineStep (pg : EngineState) (input : Fr) : EngineState :=
  { pg with
    i := pg.i + 1
    zi := (AdditionFCircuit.generate_step_constraints [pg.zi] input).headD 0
    Ui := ⟨pg.Ui.comm + pg.ui.comm⟩
    ui := ⟨input⟩ }

/-- Modelled from the spec: the serializable IVC proof snapshot
`(i, z0, zi, running and incoming instances)` plus the tag of the
parameters it was produced under. -/
structure IVCProof where
  i : Nat
  z0 : Fr
  zi : Fr
  Ui : CommittedInstance
  ui : CommittedInstance
  paramsId : Nat
deriving DecidableEq

/-- The engine call `ivc_proof`: derive the snapshot without mutation. -/
def EngineState.ivc_proof (pg : EngineState) : IVCProof :=
  ⟨pg.i, pg.z0, pg.zi, pg.Ui, pg.ui, pg.paramsId⟩

/-- Modelled from the spec: `PG::verify` accepts an honestly produced
snapshot exactly when it was produced under the given verifier
parameters; its internal cryptographic checks are opaque. -/
def engineVerify (vp : VerifierParams) (pf : IVCProof) : Bool :=
  pf.paramsId == vp.paramsId

/-- Abstract serialized bytes: one token per serialized component. -/
inductive ProofTok : Type
  | nat : Nat → ProofTok
  | fr : Fr → ProofTok
  | comm : Fr → ProofTok
deriving DecidableEq

/-- The call `serialize_compressed` on a committed instance, abstracted to
one token. -/
def serializeCI (c : CommittedInstance) : List ProofTok := [ProofTok.comm c.comm]

/-- Written from the spec words (section 3): the serialization of the full
IVC proof artifact `(i, z0, zi, running and incoming instance
commitments)`; used only to compare the spec description with what the
code serializes. -/
def specArtifactSer (pg : EngineState) : List ProofTok :=
  ProofTok.nat pg.i :: ProofTok.fr pg.z0 :: ProofTok.fr pg.zi ::
    (serializeCI pg.Ui ++ serializeCI pg.ui)

/-- Structured model of the PyRuntimeError values raised by the bridge:
`notInit msg` is a message about a missing initialization, `engineFail`
wraps a formatted engine error, and `batchAt i e` is the batch wrapper
message at gradient index `i`. -/
inductive BridgeErr : Type
  | notInit : String → BridgeErr
  | engineFail : String → BridgeErr
  | batchAt : Nat → BridgeErr → BridgeErr
deriving DecidableEq

/-- The session struct `FLZKPProver` from `src/lib.rs` lines 61-68. -/
structure FLZKPProver where
  protogalaxy : Option EngineState
  pg_params : Option (ProverParams × VerifierParams)
  current_state : List ℚ
deriving DecidableEq

/-- The constructor `FLZKPProver::new` (lines 72-79). -/
def FLZKPProver.new : FLZKPProver :=
  { protogalaxy := none, pg_params := none, current_state := [0] }

/-- `FLZKPProver::initialize` (lines 82-107), named `init` here: runs
`preprocess`, encodes the initial value, creates the engine state and
overwrites all three session fields; in the model setup never fails, so
the previous session contents are discarded unconditionally. -/
def FLZKPProver.init (_s : FLZKPProver) (initial_value : ℚ) :
    FLZKPProver × Except BridgeErr String :=
  let pg_params := preprocessParams
  let z_0 := float_to_field initial_value
  let protogalaxy := engineInit pg_params z_0
  ({ protogalaxy := some protogalaxy
     pg_params := some pg_params
     current_state := [initial_value] },
   Except.ok "ZKP system initialized successfully (ProtoGalaxy)")

/-- `FLZKPProver::prove_gradient_step` (lines 110-127). The engine's
acceptance of a step is abstracted by the predicate `E` on the encoded
external input; per the spec error contract, a rejected fold leaves the
engine state untouched, and the bridge returns before updating the
mirror, so the session comes back unchanged on every failure path. -/
def FLZKPProver.prove_gradient_step (E : Fr → Bool) (s : FLZKPProver) (gradient : ℚ) :
    FLZKPProver × Except BridgeErr String :=
  match s.protogalaxy with
  | none =>
      (s, Except.error
        (BridgeErr.notInit "ProtoGalaxy not initialized. Call initialize() first."))
  | some protogalaxy =>
      let gradient_field := float_to_field gradient
      if E gradient_field then
        let c := s.current_state.headD 0 + gradient
        ({ s with
            protogalaxy := some (engineStep protogalaxy gradient_field)
            current_state := s.current_state.set 0 c },
         Except.ok ("Step proven. Current state: " ++ toString c))
      else
        (s, Except.error (BridgeErr.engineFail "FoldingFailure"))

/-- The loop body of `FLZKPProver::prove_gradient_batch` (lines 130-140):
apply `prove_gradient_step` to each gradient in order, wrapping the first
failure with the index of the failing gradient. -/
def batchGo (E : Fr → Bool) (s : FLZKPProver) (gs : List ℚ) (idx : Nat) :
    FLZKPProver × Except BridgeErr Unit :=
  match gs with
  | [] => (s, Except.ok ())
  | g :: rest =>
      match s.prove_gradient_step E g with
      | (s2, Except.error e) => (s2, Except.error (BridgeErr.batchAt idx e))
      | (s2, Except.ok _) => batchGo E s2 rest (idx + 1)

/-- `FLZKPProver::prove_gradient_batch` (lines 130-140). -/
def FLZKPProver.prove_gradient_batch (E : Fr → Bool) (s : FLZKPProver)
    (gradients : List ℚ) : FLZKPProver × Except BridgeErr String :=
  match batchGo E s gradients 0 with
  | (s2, Except.error e) => (s2, Except.error e)
  | (s2, Except.ok _) =>
      (s2, Except.ok ("Batch of " ++ toString gradients.length ++
        " gradients proven. Final state: " ++ toString (s2.current_state.headD 0)))

/-- `FLZKPProver::generate_final_proof` (lines 143-159): serializes the
running instance followed by the incoming instance. -/
def FLZKPProver.generate_final_proof (s : FLZKPProver) :
    Except BridgeErr (List ProofTok) :=
  match s.protogalaxy with
  | none => Except.error (BridgeErr.notInit "ProtoGalaxy not initialized")
  | some protogalaxy =>
      Except.ok (serializeCI protogalaxy.Ui ++ serializeCI protogalaxy.ui)

/-- `FLZKPProver::verify_proof` (lines 162-181): the `proof_bytes`
argument is never read; the engine verifies the snapshot derived from the
session's own current state against the session's own verifier
parameters. -/
def FLZKPProver.verify_proof (s : FLZKPProver) (_proof_bytes : List ProofTok) :
    Except BridgeErr Bool :=
  match s.protogalaxy with
  | none => Except.error (BridgeErr.notInit "ProtoGalaxy not initialized")
  | some protogalaxy =>
      match s.pg_params with
      | none => Except.error (BridgeErr.notInit "ProtoGalaxy params not initialized")
      | some pg_params =>
          if engineVerify pg_params.2 protogalaxy.ivc_proof then Except.ok true
          else Except.error (BridgeErr.engineFail "VerificationFailure")

/-- `FLZKPProver::get_state` (lines 184-186). -/
def FLZKPProver.get_state (s : FLZKPProver) : List ℚ := s.current_state

/-- `FLZKPProver::get_num_steps` (lines 189-195). -/
def FLZKPProver.get_num_steps (s : FLZKPProver) : Nat :=
  match s.protogalaxy with
  | some protogalaxy => protogalaxy.i
  | none => 0

/-- A sequence of `prove_gradient_step` calls threading the session
state; the result is `ok` exactly when every call succeeded. -/
def runSteps (E : Fr → Bool) (s : FLZKPProver) (gs : List ℚ) :
    FLZKPProver × Except BridgeErr Unit :=
  match gs with
  | [] => (s, Except.ok ())
  | g :: rest =>
      match s.prove_gradient_step E g with
      | (s2, Except.error e) => (s2, Except.error e)
      | (s2, Except.ok _) => runSteps E s2 rest

/-- Mutate the first serialized token of an artifact, the one-byte
corruption of the negative test. -/
def corruptFirstTok : List ProofTok → List ProofTok
  | ProofTok.comm x :: r => ProofTok.comm (x + 1) :: r
  | l => l

/-- Placeholder engine state, used only to read an `Option` inside closed
statements. -/
def pgDefault : EngineState := ⟨0, 0, 0, ⟨0⟩, ⟨0⟩, 0⟩

/-- Decidable equality of `Except` results, for evaluating the model on
concrete inputs. -/
def exceptDecEq {ε α : Type} [DecidableEq ε] [DecidableEq α] :
    DecidableEq (Except ε α) := fun a b =>
  match a, b with
  | Except.ok x, Except.ok y =>
      if h : x = y then Decidable.isTrue (by rw [h])
      else Decidable.isFalse (fun hc => h (by injection hc))
  | Except.ok _, Except.error _ => Decidable.isFalse (fun hc => Except.noConfusion hc)
  | Except.error _, Except.ok _ => Decidable.isFalse (fun hc => Except.noConfusion hc)
  | Except.error x, Except.error y =>
      if h : x = y then Decidable.isTrue (by rw [h])
      else Decidable.isFalse (fun hc => h (by injection hc))

instance {ε α : Type} [DecidableEq ε] [DecidableEq α] : DecidableEq (Except ε α) :=
  exceptDecEq

instance : Fact (1 < bn254r) := ⟨by decide⟩

/-! Helper lemmas about the fixed-point encoder. -/

theorem ratTrunc_of_nonneg (x : ℚ) (n : ℤ) (h0 : 0 ≤ x) (h1 : (n : ℚ) ≤ x)
    (h2 : x < (n : ℚ) + 1) : ratTrunc x = n := by
  unfold ratTrunc
  rw [if_pos h0]
  rw [Int.floor_eq_iff]
  exact ⟨h1, by exact_mod_cast h2⟩

theorem ratTrunc_of_neg (x : ℚ) (n : ℤ) (h0 : ¬ 0 ≤ x) (h1 : (n : ℚ) - 1 < x)
    (h2 : x ≤ (n : ℚ)) : ratTrunc x = n := by
  unfold ratTrunc
  rw [if_neg h0]
  refine le_antisymm (Int.ceil_le.2 h2) ?_
  have hlt : (n - 1 : ℤ) < ⌈x⌉ := by
    apply Int.lt_ceil.2
    push_cast
    linarith
  omega

theorem f64ToI64_of_bounds (x : ℚ) (h : |ratTrunc x| ≤ i64Max) :
    f64ToI64 x = ratTrunc x := by
  obtain ⟨hl, hr⟩ := abs_le.1 h
  simp only [i64Max] at hl hr
  unfold f64ToI64
  rw [if_neg (by simp only [i64Min]; omega), if_neg (by simp only [i64Max]; omega)]

theorem f64ToI64_sat_max (x : ℚ) (h : i64Max < ratTrunc x) : f64ToI64 x = i64Max := by
  simp only [i64Max] at h
  unfold f64ToI64
  rw [if_neg (by simp only [i64Min]; omega), if_pos (by simp only [i64Max]; omega)]

/-- Under no saturation, the encoder is the field embedding of the
truncated scaled value. -/
theorem encode_intCast (x : ℚ) (h : |ratTrunc (x * 1000000)| ≤ i64Max) :
    float_to_field x = ((ratTrunc (x * 1000000) : ℤ) : Fr) := by
  have habs := abs_le.1 h
  unfold float_to_field
  rw [f64ToI64_of_bounds _ h]
  by_cases h0 : 0 ≤ ratTrunc (x * 1000000)
  · rw [if_pos h0]
    rw [← Int.cast_natCast (R := Fr)]
    congr 1
    omega
  · rw [if_neg h0]
    unfold negAsU64
    rw [if_neg]
    · rw [← Int.cast_natCast (R := Fr)]
      have heq : (((-ratTrunc (x * 1000000)).toNat : ℕ) : ℤ) = -ratTrunc (x * 1000000) := by
        omega
      rw [heq, Int.cast_neg, neg_neg]
    · obtain ⟨hl, hr⟩ := habs
      simp only [i64Max] at hl
      simp only [i64Min]
      omega

theorem float_to_field_eq_natCast (x : ℚ) (m : ℕ)
    (h1 : ratTrunc (x * 1000000) = (m : ℤ)) (h2 : (m : ℤ) ≤ i64Max) :
    float_to_field x = ((m : ℕ) : Fr) := by
  have h : |ratTrunc (x * 1000000)| ≤ i64Max := by
    rw [h1]
    rw [abs_of_nonneg (by positivity)]
    exact h2
  rw [encode_intCast x h, h1]
  exact Int.cast_natCast m

theorem float_to_field_eq_neg_natCast (x : ℚ) (m : ℕ)
    (h1 : ratTrunc (x * 1000000) = -(m : ℤ)) (h2 : (m : ℤ) ≤ i64Max) :
    float_to_field x = -((m : ℕ) : Fr) := by
  have h : |ratTrunc (x * 1000000)| ≤ i64Max := by
    rw [h1, abs_neg]
    rw [abs_of_nonneg (by positivity)]
    exact h2
  rw [encode_intCast x h, h1]
  rw [Int.cast_neg, Int.cast_natCast]

theorem field_to_float_natCast (m : ℕ) (hp : m < bn254r) (hw : m < 2 ^ 64) :
    field_to_float ((m : ℕ) : Fr) = (m : ℚ) / 1000000 := by
  unfold field_to_float
  rw [ZMod.val_natCast_of_lt hp]
  rw [if_pos hw]

/-! Helper lemmas about the session state machine. -/

theorem prove_gradient_step_err (E : Fr → Bool) (s : FLZKPProver) (g : ℚ)
    (e : BridgeErr) (h : (s.prove_gradient_step E g).2 = Except.error e) :
    (s.prove_gradient_step E g).1 = s := by
  unfold FLZKPProver.prove_gradient_step at h ⊢
  cases hpg : s.protogalaxy with
  | none => simp [hpg]
  | some pg =>
      by_cases hE : E (float_to_field g)
      · simp [hpg, hE] at h
      · simp [hpg, hE]

theorem prove_gradient_step_ok (E : Fr → Bool) (s s2 : FLZKPProver) (g : ℚ)
    (m : String) (h : s.prove_gradient_step E g = (s2, Except.ok m)) :
    ∃ pg, s.protogalaxy = some pg ∧ E (float_to_field g) = true ∧
      s2.protogalaxy = some (engineStep pg (float_to_field g)) ∧
      s2.pg_params = s.pg_params ∧
      s2.current_state = s.current_state.set 0 (s.current_state.headD 0 + g) := by
  unfold FLZKPProver.prove_gradient_step at h
  cases hpg : s.protogalaxy with
  | none => simp [hpg] at h
  | some pg =>
      by_cases hE : E (float_to_field g)
      · refine ⟨pg, rfl, hE, ?_⟩
        simp only [hpg, hE, if_true] at h
        obtain ⟨h1, -⟩ := Prod.mk.injEq .. ▸ h
        rw [← h1]
        exact ⟨rfl, rfl, rfl⟩
      · simp [hpg, hE] at h

theorem runSteps_ok_inv (E : Fr → Bool) (gs : List ℚ) :
    ∀ (s s1 : FLZKPProver) (pg : EngineState) (c : ℚ),
      s.protogalaxy = some pg → s.current_state = [c] →
      runSteps E s gs = (s1, Except.ok ()) →
      ∃ pg1, s1.protogalaxy = some pg1 ∧ pg1.i = pg.i + gs.length ∧
        s1.current_state = [c + gs.sum] := by
  induction gs with
  | nil =>
      intro s s1 pg c hpg hcs hrun
      unfold runSteps at hrun
      obtain ⟨h1, -⟩ := Prod.mk.injEq .. ▸ hrun
      exact ⟨pg, by rw [← h1]; exact hpg, by simp, by rw [← h1, hcs]; simp⟩
  | cons g rest ih =>
      intro s s1 pg c hpg hcs hrun
      unfold runSteps at hrun
      cases hstep : s.prove_gradient_step E g with
      | mk s2 r =>
          cases r with
          | error e => rw [hstep] at hrun; simp at hrun
          | ok m =>
              rw [hstep] at hrun
              obtain ⟨pg', hpg', -, hpg2, -, hcs2⟩ :=
                prove_gradient_step_ok E s s2 g m hstep
              rw [hpg] at hpg'
              obtain rfl : pg = pg' := by injection hpg'
              have hcs2' : s2.current_state = [c + g] := by
                rw [hcs2, hcs]
                simp
              obtain ⟨pg1, hp1, hi1, hc1⟩ :=
                ih s2 s1 (engineStep pg (float_to_field g)) (c + g) hpg2 hcs2' hrun
              refine ⟨pg1, hp1, ?_, ?_⟩
              · rw [hi1]
                simp only [engineStep, List.length_cons]
                omega
              · rw [hc1]
                simp only [List.sum_cons]
                ring_nf

theorem batchGo_of_runSteps_ok (E : Fr → Bool) (gs : List ℚ) :
    ∀ (s : FLZKPProver) (idx : Nat), (runSteps E s gs).2 = Except.ok () →
      batchGo E s gs idx = ((runSteps E s gs).1, Except.ok ()) := by
  induction gs with
  | nil => intro s idx h; rfl
  | cons g rest ih =>
      intro s idx h
      unfold runSteps at h ⊢
      unfold batchGo
      cases hstep : s.prove_gradient_step E g with
      | mk s2 r =>
          rw [hstep] at h
          cases r with
          | error e => simp at h
          | ok m =>
              dsimp only at h ⊢
              exact ih s2 (idx + 1) h

theorem batchGo_err (E : Fr → Bool) :
    ∀ (j : Nat) (gs : List ℚ) (s : FLZKPProver) (idx : Nat) (e : BridgeErr),
      j < gs.length →
      (runSteps E s (gs.take j)).2 = Except.ok () →
      ((runSteps E s (gs.take j)).1.prove_gradient_step E (gs.getD j 0)).2
        = Except.error e →
      batchGo E s gs idx
        = ((runSteps E s (gs.take j)).1, Except.error (BridgeErr.batchAt (idx + j) e)) := by
  intro j
  induction j with
  | zero =>
      intro gs s idx e hj hpre hfail
      cases gs with
      | nil => simp at hj
      | cons g rest =>
          simp only [List.take_zero, List.getD_cons_zero] at hpre hfail ⊢
          have hrs : runSteps E s ([] : List ℚ) = (s, Except.ok ()) := rfl
          rw [hrs] at hfail ⊢
          dsimp only at hfail ⊢
          unfold batchGo
          cases hstep : s.prove_gradient_step E g with
          | mk s2 r =>
              have h2 : r = Except.error e := by
                rw [hstep] at hfail
                exact hfail
              subst h2
              dsimp only
              have hs2 : s2 = s := by
                have h1 := prove_gradient_step_err E s g e (by rw [hstep])
                rw [hstep] at h1
                exact h1
              rw [hs2]
              simp
  | succ j ih =>
      intro gs s idx e hj hpre hfail
      cases gs with
      | nil => simp at hj
      | cons g rest =>
          simp only [List.take_succ_cons, List.getD_cons_succ] at hpre hfail ⊢
          unfold batchGo
          unfold runSteps at hpre hfail ⊢
          cases hstep : s.prove_gradient_step E g with
          | mk s2 r =>
              rw [hstep] at hpre hfail
              cases r with
              | error e2 => simp at hpre
              | ok m =>
                  dsimp only at hpre hfail ⊢
                  have hlen : j < rest.length := by simpa using hj
                  rw [ih rest s2 (idx + 1) e hlen hpre hfail]
                  have hidx : idx + 1 + j = idx + (j + 1) := by omega
                  rw [hidx]

theorem prove_gradient_step_eq_of_some (E : Fr → Bool) (s : FLZKPProver)
    (pg : EngineState) (g : ℚ) (hpg : s.protogalaxy = some pg)
    (hE : E (float_to_field g) = true) :
    s.prove_gradient_step E g
      = ({ s with
            protogalaxy := some (engineStep pg (float_to_field g))
            current_state := s.current_state.set 0 (s.current_state.headD 0 + g) },
         Except.ok ("Step proven. Current state: "
            ++ toString (s.current_state.headD 0 + g))) := by
  unfold FLZKPProver.prove_gradient_step
  rw [hpg]
  dsimp only
  rw [if_pos hE]

theorem prove_gradient_step_eq_of_reject (E : Fr → Bool) (s : FLZKPProver)
    (pg : EngineState) (g : ℚ) (hpg : s.protogalaxy = some pg)
    (hE : E (float_to_field g) = false) :
    s.prove_gradient_step E g
      = (s, Except.error (BridgeErr.engineFail "FoldingFailure")) := by
  unfold FLZKPProver.prove_gradient_step
  rw [hpg]
  dsimp only
  rw [if_neg (by rw [hE]; exact Bool.false_ne_true)]

/-! The claims. -/

/-- C1: the claim demands that verifying a corrupted serialized artifact
must fail, but the code ignores the `proof_bytes` argument entirely: on a
session initialized with 0 and one folded gradient 1, the serialized
artifact with its first token mutated is still accepted, `verify_proof`
returns `Ok(true)`. -/
theorem C1_corrupted_artifact_still_accepted :
    ∃ good : List ProofTok,
      ((FLZKPProver.new.init 0).1.prove_gradient_step (fun _ => true) 1).1.generate_final_proof
          = Except.ok good ∧
      corruptFirstTok good ≠ good ∧
      ((FLZKPProver.new.init 0).1.prove_gradient_step (fun _ => true) 1).1.verify_proof
          (corruptFirstTok good) = Except.ok true := by
  refine ⟨_, rfl, ?_, rfl⟩
  intro hcon
  simp only [serializeCI, corruptFirstTok, List.cons_append, List.nil_append,
    List.cons.injEq, ProofTok.comm.injEq, and_true] at hcon
  exact one_ne_zero (add_right_eq_self.1 hcon)

/-- C2: `verify_proof` returns the same result for any two byte sequences:
the `proof_bytes` argument has no influence on the outcome, because
verification is performed on the session's own current internal state. -/
theorem C2_verify_independent_of_bytes (s : FLZKPProver) (b1 b2 : List ProofTok) :
    s.verify_proof b1 = s.verify_proof b2 := rfl

/-- C3 counterexample: on a freshly initialized session the bytes returned
by `generate_final_proof` are not the serialization of the full IVC
artifact `(i, z0, zi, commitments)` described by the spec; only the two
committed instances are serialized. -/
theorem C3_counterexample_missing_fields :
    (FLZKPProver.new.init 0).1.generate_final_proof
      ≠ Except.ok (specArtifactSer
          (((FLZKPProver.new.init 0).1).protogalaxy.getD pgDefault)) := by
  intro hcon
  simp only [FLZKPProver.init, FLZKPProver.generate_final_proof, FLZKPProver.new,
    specArtifactSer, serializeCI, Option.getD_some, List.cons_append, List.nil_append,
    Except.ok.injEq, List.cons.injEq] at hcon
  exact ProofTok.noConfusion hcon.1

/-- C3 amended: for every initialized session, `generate_final_proof`
returns exactly the concatenated serializations of the running committed
instance `U_i` and the incoming committed instance `u_i`; the step counter
`i` and the states `z_0`, `z_i` are not part of the bytes (every token is
a commitment token). -/
theorem C3_amended_serializes_instances_only (s : FLZKPProver) (pg : EngineState)
    (h : s.protogalaxy = some pg) :
    s.generate_final_proof = Except.ok (serializeCI pg.Ui ++ serializeCI pg.ui) ∧
    ∀ t ∈ serializeCI pg.Ui ++ serializeCI pg.ui, ∃ x, t = ProofTok.comm x := by
  constructor
  · unfold FLZKPProver.generate_final_proof
    rw [h]
  · intro t ht
    simp only [serializeCI, List.cons_append, List.nil_append, List.mem_cons,
      List.not_mem_nil, or_false] at ht
    rcases ht with h1 | h1 <;> exact ⟨_, h1⟩

/-- Witness for C3 amended, on the session initialized with 0. -/
theorem C3_amended_witness :
    ((FLZKPProver.new.init 0).1.protogalaxy
        = some (engineInit preprocessParams (float_to_field 0))) ∧
    ((FLZKPProver.new.init 0).1.generate_final_proof
        = Except.ok (serializeCI (engineInit preprocessParams (float_to_field 0)).Ui
            ++ serializeCI (engineInit preprocessParams (float_to_field 0)).ui) ∧
      ∀ t ∈ serializeCI (engineInit preprocessParams (float_to_field 0)).Ui
          ++ serializeCI (engineInit preprocessParams (float_to_field 0)).ui,
        ∃ x, t = ProofTok.comm x) :=
  ⟨rfl, C3_amended_serializes_instances_only _ _ rfl⟩

/-- C4: for every initial value `v0` and gradients `g_1..g_n`, after
`initialize(v0)` and `n` successful `prove_gradient_step` calls, the state
returned by `get_state` equals `v0 + sum of the gradients` (exactly in the
model), in particular within the encoder tolerance `n * 1e-6`. -/
theorem C4_additive_correctness (E : Fr → Bool) (v0 : ℚ) (gs : List ℚ)
    (s1 : FLZKPProver)
    (h : runSteps E ((FLZKPProver.new.init v0).1) gs = (s1, Except.ok ())) :
    s1.get_state = [v0 + gs.sum] ∧
    |s1.get_state.headD 0 - (v0 + gs.sum)| ≤ (gs.length : ℚ) * (1 / 1000000) := by
  obtain ⟨pg1, hp1, hi1, hc1⟩ := runSteps_ok_inv E gs ((FLZKPProver.new.init v0).1) s1
    (engineInit preprocessParams (float_to_field v0)) v0 rfl rfl h
  have hst : s1.get_state = [v0 + gs.sum] := hc1
  refine ⟨hst, ?_⟩
  rw [hst]
  simp only [List.headD_cons, sub_self, abs_zero]
  positivity

/-- Witness for C4 at `v0 = 0`, `gs = [1, 2]`. -/
theorem C4_additive_correctness_witness :
    runSteps (fun _ => true) ((FLZKPProver.new.init 0).1) [1, 2]
      = ((runSteps (fun _ => true) ((FLZKPProver.new.init 0).1) [1, 2]).1,
         Except.ok ()) ∧
    ((runSteps (fun _ => true) ((FLZKPProver.new.init 0).1) [1, 2]).1.get_state
        = [0 + ([1, 2] : List ℚ).sum] ∧
      |(runSteps (fun _ => true) ((FLZKPProver.new.init 0).1) [1, 2]).1.get_state.headD 0
          - (0 + ([1, 2] : List ℚ).sum)|
        ≤ ((([1, 2] : List ℚ).length : ℕ) : ℚ) * (1 / 1000000)) :=
  ⟨rfl, C4_additive_correctness (fun _ => true) 0 [1, 2] _ rfl⟩

/-- C5: after `k` successful `prove_gradient_step` calls from
initialization, `get_num_steps` returns exactly `k`; and a failed
`prove_gradient_step` returns the session exactly as it was before the
call, leaving counter and plaintext mirror untouched. -/
theorem C5_step_counter :
    (∀ (E : Fr → Bool) (v0 : ℚ) (gs : List ℚ) (s1 : FLZKPProver),
        runSteps E ((FLZKPProver.new.init v0).1) gs = (s1, Except.ok ()) →
        s1.get_num_steps = gs.length) ∧
    (∀ (E : Fr → Bool) (s : FLZKPProver) (g : ℚ) (e : BridgeErr),
        (s.prove_gradient_step E g).2 = Except.error e →
        (s.prove_gradient_step E g).1 = s) := by
  constructor
  · intro E v0 gs s1 h
    obtain ⟨pg1, hp1, hi1, -⟩ := runSteps_ok_inv E gs ((FLZKPProver.new.init v0).1) s1
      (engineInit preprocessParams (float_to_field v0)) v0 rfl rfl h
    unfold FLZKPProver.get_num_steps
    rw [hp1]
    dsimp only
    rw [hi1]
    simp [engineInit]
  · exact prove_gradient_step_err

/-- Witness for C5: two successful steps give counter 2; a step on the
uninitialized session fails and returns the session unchanged. -/
theorem C5_step_counter_witness :
    (runSteps (fun _ => true) ((FLZKPProver.new.init 0).1) [1, 2]
        = ((runSteps (fun _ => true) ((FLZKPProver.new.init 0).1) [1, 2]).1,
           Except.ok ()) ∧
      (runSteps (fun _ => true) ((FLZKPProver.new.init 0).1) [1, 2]).1.get_num_steps
        = ([1, 2] : List ℚ).length) ∧
    ((FLZKPProver.new.prove_gradient_step (fun _ => true) 1).2
        = Except.error
            (BridgeErr.notInit "ProtoGalaxy not initialized. Call initialize() first.") ∧
      (FLZKPProver.new.prove_gradient_step (fun _ => true) 1).1 = FLZKPProver.new) :=
  ⟨⟨rfl, C5_step_counter.1 (fun _ => true) 0 [1, 2] _ rfl⟩,
   ⟨rfl, C5_step_counter.2 (fun _ => true) FLZKPProver.new 1
      (BridgeErr.notInit "ProtoGalaxy not initialized. Call initialize() first.") rfl⟩⟩

/-- C7: on a session where initialize never ran, `prove_gradient_step`,
`generate_final_proof` and `verify_proof` each fail with the
not-initialized error, and all three succeed once `initialize` has been
called. -/
theorem C7_not_initialized_errors (E : Fr → Bool) (g v0 : ℚ)
    (bytes : List ProofTok) (hE : E (float_to_field g) = true) :
    (FLZKPProver.new.prove_gradient_step E g).2
      = Except.error
          (BridgeErr.notInit "ProtoGalaxy not initialized. Call initialize() first.") ∧
    FLZKPProver.new.generate_final_proof
      = Except.error (BridgeErr.notInit "ProtoGalaxy not initialized") ∧
    FLZKPProver.new.verify_proof bytes
      = Except.error (BridgeErr.notInit "ProtoGalaxy not initialized") ∧
    (∃ m, (((FLZKPProver.new.init v0).1).prove_gradient_step E g).2 = Except.ok m) ∧
    (∃ pf, ((FLZKPProver.new.init v0).1).generate_final_proof = Except.ok pf) ∧
    ((FLZKPProver.new.init v0).1).verify_proof bytes = Except.ok true := by
  refine ⟨rfl, rfl, rfl, ?_, ⟨_, rfl⟩, rfl⟩
  have hstep := prove_gradient_step_eq_of_some E ((FLZKPProver.new.init v0).1)
    (engineInit preprocessParams (float_to_field v0)) g rfl hE
  rw [hstep]
  exact ⟨_, rfl⟩

/-- Witness for C7 with the all-accepting engine, `g = 1`, `v0 = 2`. -/
theorem C7_not_initialized_errors_witness :
    ((fun _ => true : Fr → Bool) (float_to_field 1) = true) ∧
    ((FLZKPProver.new.prove_gradient_step (fun _ => true) 1).2
        = Except.error
            (BridgeErr.notInit "ProtoGalaxy not initialized. Call initialize() first.") ∧
      FLZKPProver.new.generate_final_proof
        = Except.error (BridgeErr.notInit "ProtoGalaxy not initialized") ∧
      FLZKPProver.new.verify_proof []
        = Except.error (BridgeErr.notInit "ProtoGalaxy not initialized") ∧
      (∃ m, (((FLZKPProver.new.init 2).1).prove_gradient_step (fun _ => true) 1).2
          = Except.ok m) ∧
      (∃ pf, ((FLZKPProver.new.init 2).1).generate_final_proof = Except.ok pf) ∧
      ((FLZKPProver.new.init 2).1).verify_proof [] = Except.ok true) :=
  ⟨rfl, C7_not_initialized_errors (fun _ => true) 1 2 [] rfl⟩

/-- C8: calling initialize on an already-initialized session is not
rejected; it re-runs setup from scratch, leaving the session with zero
steps and state `[v]`, the previously folded history being discarded. -/
theorem C8_reinit_from_scratch (s : FLZKPProver) (pg : EngineState) (v : ℚ)
    (_h : s.protogalaxy = some pg) :
    (∃ e, (s.init v).2 = Except.error e) ∨
    ((s.init v).1.get_num_steps = 0 ∧ (s.init v).1.get_state = [v]) :=
  Or.inr ⟨rfl, rfl⟩

/-- Witness for C8 on the session initialized with 0, re-initialized
with 1. -/
theorem C8_reinit_from_scratch_witness :
    ((FLZKPProver.new.init 0).1.protogalaxy
        = some (engineInit preprocessParams (float_to_field 0))) ∧
    ((∃ e, (((FLZKPProver.new.init 0).1).init 1).2 = Except.error e) ∨
      ((((FLZKPProver.new.init 0).1).init 1).1.get_num_steps = 0 ∧
        (((FLZKPProver.new.init 0).1).init 1).1.get_state = [1])) :=
  ⟨rfl, C8_reinit_from_scratch _ _ 1 rfl⟩

theorem float_to_field_zero : float_to_field 0 = ((0 : ℕ) : Fr) := by
  have h1 : ratTrunc ((0 : ℚ) * 1000000) = ((0 : ℕ) : ℤ) :=
    ratTrunc_of_nonneg _ _ (by norm_num) (by norm_num) (by norm_num)
  exact float_to_field_eq_natCast 0 0 h1 (by simp only [i64Max]; norm_num)

theorem float_to_field_five : float_to_field 5 = ((5000000 : ℕ) : Fr) := by
  have h1 : ratTrunc ((5 : ℚ) * 1000000) = ((5000000 : ℕ) : ℤ) :=
    ratTrunc_of_nonneg _ _ (by norm_num) (by norm_num) (by norm_num)
  exact float_to_field_eq_natCast 5 5000000 h1 (by simp only [i64Max]; norm_num)

theorem float_to_field_five_ne_zero : float_to_field 5 ≠ float_to_field 0 := by
  rw [float_to_field_five, float_to_field_zero]
  intro hcon
  rw [Nat.cast_zero, ZMod.natCast_zmod_eq_zero_iff_dvd] at hcon
  have hle := Nat.le_of_dvd (by norm_num) hcon
  have : (5000000 : ℕ) < bn254r := by decide
  omega

/-- C6: `prove_gradient_batch` applies the steps strictly in order and is
not atomic: when the steps before index `j` succeed and the step at index
`j` is rejected, the batch call stops, reports the error wrapped with the
failing index `j` (the code message `Error at gradient j`), and leaves
exactly the `j` previously folded steps committed in `get_num_steps`.
With 1-based positions this is: failure at position `k = j + 1` reports
that position and leaves `k - 1` folds. -/
theorem C6_batch_non_atomic (E : Fr → Bool) (v0 : ℚ) (gs : List ℚ) (j : Nat)
    (e : BridgeErr) (hj : j < gs.length)
    (hpre : (runSteps E ((FLZKPProver.new.init v0).1) (gs.take j)).2 = Except.ok ())
    (hfail : ((runSteps E ((FLZKPProver.new.init v0).1) (gs.take j)).1.prove_gradient_step
        E (gs.getD j 0)).2 = Except.error e) :
    (((FLZKPProver.new.init v0).1).prove_gradient_batch E gs).2
      = Except.error (BridgeErr.batchAt j e) ∧
    (((FLZKPProver.new.init v0).1).prove_gradient_batch E gs).1.get_num_steps = j := by
  have hb := batchGo_err E j gs ((FLZKPProver.new.init v0).1) 0 e hj hpre hfail
  have hpre' : runSteps E ((FLZKPProver.new.init v0).1) (gs.take j)
      = ((runSteps E ((FLZKPProver.new.init v0).1) (gs.take j)).1, Except.ok ()) := by
    rw [← hpre]
  obtain ⟨pg1, hp1, hi1, -⟩ := runSteps_ok_inv E (gs.take j)
    ((FLZKPProver.new.init v0).1)
    (runSteps E ((FLZKPProver.new.init v0).1) (gs.take j)).1
    (engineInit preprocessParams (float_to_field v0)) v0 rfl rfl hpre'
  unfold FLZKPProver.prove_gradient_batch
  rw [hb]
  dsimp only
  constructor
  · simp
  · unfold FLZKPProver.get_num_steps
    rw [hp1]
    dsimp only
    rw [hi1]
    simp only [engineInit, List.length_take]
    omega

/-- Witness for C6: engine accepting only the encoded gradient 0, batch
`[0, 5]`, failing at index 1 after one committed fold. -/
theorem C6_batch_non_atomic_witness :
    (1 < ([0, 5] : List ℚ).length) ∧
    ((runSteps (fun x => x == float_to_field 0) ((FLZKPProver.new.init 0).1)
        (([0, 5] : List ℚ).take 1)).2 = Except.ok ()) ∧
    (((runSteps (fun x => x == float_to_field 0) ((FLZKPProver.new.init 0).1)
        (([0, 5] : List ℚ).take 1)).1.prove_gradient_step (fun x => x == float_to_field 0)
        (([0, 5] : List ℚ).getD 1 0)).2
      = Except.error (BridgeErr.engineFail "FoldingFailure")) ∧
    ((((FLZKPProver.new.init 0).1).prove_gradient_batch
          (fun x => x == float_to_field 0) [0, 5]).2
        = Except.error (BridgeErr.batchAt 1 (BridgeErr.engineFail "FoldingFailure")) ∧
      (((FLZKPProver.new.init 0).1).prove_gradient_batch
          (fun x => x == float_to_field 0) [0, 5]).1.get_num_steps = 1) := by
  have hE0 : (fun x => x == float_to_field 0) (float_to_field 0) = true :=
    beq_self_eq_true' (float_to_field 0)
  have hE5 : (fun x => x == float_to_field 0) (float_to_field 5) = false :=
    beq_eq_false_iff_ne.2 float_to_field_five_ne_zero
  have hstep0 := prove_gradient_step_eq_of_some (fun x => x == float_to_field 0)
    ((FLZKPProver.new.init 0).1) (engineInit preprocessParams (float_to_field 0)) 0
    rfl hE0
  have hpre : (runSteps (fun x => x == float_to_field 0) ((FLZKPProver.new.init 0).1)
      (([0, 5] : List ℚ).take 1)).2 = Except.ok () := by
    show (runSteps (fun x => x == float_to_field 0) ((FLZKPProver.new.init 0).1)
      [0]).2 = Except.ok ()
    unfold runSteps
    rw [hstep0]
    rfl
  have hs1 : (runSteps (fun x => x == float_to_field 0) ((FLZKPProver.new.init 0).1)
      (([0, 5] : List ℚ).take 1)).1.protogalaxy
      = some (engineStep (engineInit preprocessParams (float_to_field 0))
          (float_to_field 0)) := by
    show (runSteps (fun x => x == float_to_field 0) ((FLZKPProver.new.init 0).1)
      [0]).1.protogalaxy = _
    unfold runSteps
    rw [hstep0]
    rfl
  have hfail : (((runSteps (fun x => x == float_to_field 0) ((FLZKPProver.new.init 0).1)
      (([0, 5] : List ℚ).take 1)).1).prove_gradient_step (fun x => x == float_to_field 0)
      (([0, 5] : List ℚ).getD 1 0)).2
      = Except.error (BridgeErr.engineFail "FoldingFailure") := by
    have hrej := prove_gradient_step_eq_of_reject (fun x => x == float_to_field 0)
      ((runSteps (fun x => x == float_to_field 0) ((FLZKPProver.new.init 0).1)
        (([0, 5] : List ℚ).take 1)).1)
      (engineStep (engineInit preprocessParams (float_to_field 0)) (float_to_field 0))
      5 hs1 hE5
    show (((runSteps (fun x => x == float_to_field 0) ((FLZKPProver.new.init 0).1)
      (([0, 5] : List ℚ).take 1)).1).prove_gradient_step (fun x => x == float_to_field 0)
      5).2 = Except.error (BridgeErr.engineFail "FoldingFailure")
    rw [hrej]
  exact ⟨by norm_num, hpre, hfail,
    C6_batch_non_atomic (fun x => x == float_to_field 0) 0 [0, 5] 1
      (BridgeErr.engineFail "FoldingFailure") (by norm_num) hpre hfail⟩

/-- C9 counterexample: at the finite value `x = 1e13` the scaled value
`1e19` exceeds `i64::MAX`, the Rust cast saturates, and `float_to_field`
does not return the field element of the truncated scaled integer. -/
theorem C9_counterexample_saturation :
    ¬ (float_to_field 10000000000000
        = ((ratTrunc ((10000000000000 : ℚ) * 1000000) : ℤ) : Fr)) := by
  have ht : ratTrunc ((10000000000000 : ℚ) * 1000000)
      = ((10000000000000000000 : ℕ) : ℤ) :=
    ratTrunc_of_nonneg _ _ (by norm_num) (by norm_num) (by norm_num)
  have hsat : f64ToI64 ((10000000000000 : ℚ) * 1000000) = i64Max :=
    f64ToI64_sat_max _ (by rw [ht]; simp only [i64Max]; norm_num)
  have hmax : i64Max = ((9223372036854775807 : ℕ) : ℤ) := by
    simp only [i64Max]
    norm_num
  have hval : float_to_field 10000000000000 = ((i64Max.toNat : ℕ) : Fr) := by
    unfold float_to_field
    rw [hsat]
    dsimp only
    rw [if_pos (by rw [hmax]; positivity)]
  intro hcon
  rw [hval, ht, Int.cast_natCast, hmax] at hcon
  have h2 : (((9223372036854775807 : ℕ) : ℤ)).toNat = (9223372036854775807 : ℕ) := rfl
  rw [h2, ZMod.natCast_eq_natCast_iff'] at hcon
  exact absurd hcon (by decide)

/-- C9 amended: for every finite `x` whose truncated scaled value
`trunc(x * 1e6)` fits in the i64 range (no saturation of the Rust cast),
`float_to_field` returns the field element of the integer obtained by
scaling `x` by 1e6 and truncating toward zero, a negative value giving
the field's additive inverse of the magnitude; encode is total and never
fails. -/
theorem C9_amended_encode (x : ℚ) (h : |ratTrunc (x * 1000000)| ≤ i64Max) :
    float_to_field x = ((ratTrunc (x * 1000000) : ℤ) : Fr) :=
  encode_intCast x h

/-- Witness for C9 amended at `x = 3/2`. -/
theorem C9_amended_encode_witness :
    (|ratTrunc ((3 / 2 : ℚ) * 1000000)| ≤ i64Max) ∧
    float_to_field (3 / 2) = ((ratTrunc ((3 / 2 : ℚ) * 1000000) : ℤ) : Fr) := by
  have ht : ratTrunc ((3 / 2 : ℚ) * 1000000) = (1500000 : ℤ) :=
    ratTrunc_of_nonneg _ _ (by norm_num) (by norm_num) (by norm_num)
  have hb : |ratTrunc ((3 / 2 : ℚ) * 1000000)| ≤ i64Max := by
    rw [ht]
    simp only [i64Max]
    norm_num
  exact ⟨hb, C9_amended_encode (3 / 2) hb⟩

/-- C10 counterexample: at `x = -1/2` the scaled magnitude `500000` fits
comfortably in the machine word, yet the round trip fails: the negative
value is encoded as the additive inverse `r - 500000`, whose canonical
representative does not fit in a u64, so `field_to_float` falls back to 0,
which is not within `1e-6` of `-1/2`. -/
theorem C10_counterexample_negative :
    |ratTrunc ((-(1 : ℚ) / 2) * 1000000)| ≤ i64Max ∧
    ¬ (|field_to_float (float_to_field (-(1 : ℚ) / 2)) - (-(1 : ℚ) / 2)|
        ≤ 1 / 1000000) := by
  have ht : ratTrunc ((-(1 : ℚ) / 2) * 1000000) = -((500000 : ℕ) : ℤ) :=
    ratTrunc_of_neg _ _ (by norm_num) (by norm_num) (by norm_num)
  have henc : float_to_field (-(1 : ℚ) / 2) = -((500000 : ℕ) : Fr) :=
    float_to_field_eq_neg_natCast _ 500000 ht (by simp only [i64Max]; norm_num)
  have hne : ((500000 : ℕ) : Fr) ≠ 0 := by
    intro hzero
    rw [ZMod.natCast_zmod_eq_zero_iff_dvd] at hzero
    have hle := Nat.le_of_dvd (by norm_num) hzero
    have hlt : (500000 : ℕ) < bn254r := by decide
    omega
  have hval : (-((500000 : ℕ) : Fr)).val = bn254r - 500000 := by
    rw [ZMod.neg_val, if_neg hne, ZMod.val_natCast_of_lt (by decide)]
  have hdec : field_to_float (float_to_field (-(1 : ℚ) / 2)) = 0 := by
    rw [henc]
    unfold field_to_float
    rw [hval]
    rw [if_neg (by decide)]
  constructor
  · rw [ht]
    simp only [i64Max]
    norm_num
  · rw [hdec]
    rw [show (0 : ℚ) - (-(1 : ℚ) / 2) = 1 / 2 by ring]
    rw [abs_of_nonneg (by norm_num : (0 : ℚ) ≤ 1 / 2)]
    norm_num

/-- C10 amended: for every finite nonnegative `x` whose truncated scaled
value fits in the i64 range, `field_to_float (float_to_field x)` is within
`1e-6` of `x`; the restriction to nonnegative values is forced because the
additive-inverse encoding of any negative value decodes to 0. -/
theorem C10_amended_roundtrip (x : ℚ) (h0 : 0 ≤ x)
    (h : ratTrunc (x * 1000000) ≤ i64Max) :
    |field_to_float (float_to_field x) - x| ≤ 1 / 1000000 := by
  have hxm : 0 ≤ x * 1000000 := by positivity
  have hfl : ratTrunc (x * 1000000) = ⌊x * 1000000⌋ := by
    unfold ratTrunc
    rw [if_pos hxm]
  have htn : 0 ≤ ratTrunc (x * 1000000) := by
    rw [hfl]
    exact Int.floor_nonneg.2 hxm
  have hmle : ((ratTrunc (x * 1000000)).toNat : ℤ) = ratTrunc (x * 1000000) :=
    Int.toNat_of_nonneg htn
  have henc : float_to_field x = (((ratTrunc (x * 1000000)).toNat : ℕ) : Fr) :=
    float_to_field_eq_natCast x (ratTrunc (x * 1000000)).toNat hmle.symm
      (by rw [hmle]; exact h)
  have hbound : ((2 : ℤ) ^ 63 - 1) < ((bn254r : ℕ) : ℤ) := by
    norm_num [bn254r]
  have hlt_p : (ratTrunc (x * 1000000)).toNat < bn254r := by
    simp only [i64Max] at h
    omega
  have hlt_w : (ratTrunc (x * 1000000)).toNat < 2 ^ 64 := by
    simp only [i64Max] at h
    omega
  have hdec := field_to_float_natCast (ratTrunc (x * 1000000)).toNat hlt_p hlt_w
  rw [henc, hdec]
  have hcast : (((ratTrunc (x * 1000000)).toNat : ℕ) : ℚ)
      = ((ratTrunc (x * 1000000) : ℤ) : ℚ) := by
    conv_rhs => rw [← hmle]
    push_cast
    ring
  rw [hcast]
  have h1 : ((ratTrunc (x * 1000000) : ℤ) : ℚ) ≤ x * 1000000 := by
    rw [hfl]
    exact Int.floor_le _
  have h2 : x * 1000000 < ((ratTrunc (x * 1000000) : ℤ) : ℚ) + 1 := by
    rw [hfl]
    exact Int.lt_floor_add_one _
  rw [abs_le]
  constructor
  · linarith
  · linarith

/-- Witness for C10 amended at `x = 3/2`. -/
theorem C10_amended_roundtrip_witness :
    ((0 : ℚ) ≤ 3 / 2 ∧ ratTrunc ((3 / 2 : ℚ) * 1000000) ≤ i64Max) ∧
    |field_to_float (float_to_field (3 / 2)) - 3 / 2| ≤ 1 / 1000000 := by
  have ht : ratTrunc ((3 / 2 : ℚ) * 1000000) = (1500000 : ℤ) :=
    ratTrunc_of_nonneg _ _ (by norm_num) (by norm_num) (by norm_num)
  have hb : ratTrunc ((3 / 2 : ℚ) * 1000000) ≤ i64Max := by
    rw [ht]
    simp only [i64Max]
    norm_num
  exact ⟨⟨by norm_num, hb⟩, C10_amended_roundtrip (3 / 2) (by norm_num) hb⟩

end FLZKP
